import Mathlib

/-!
# Verification of the LocalLlama gateway (`server/main.py`)

A shallow embedding of the streaming-proxy layer and the conversation
persistence subsystem of the gateway, together with theorems settling the
specification's claims about them.

Modelling conventions:
* HTTP handlers become pure functions over an explicit `Store` state; a
  handler that performs no filesystem write returns the state unchanged.
* The two nondeterministic inputs of `save_conversation` — `uuid4().hex`
  and `_now_iso()` — are passed in as explicit `freshId` / `now` arguments.
* The upstream daemon's reply to one request is an `Upstream` record
  (status code plus body text); `httpx` line splitting (`aiter_lines`)
  becomes `String.splitOn "\n"` over the body.
* `settings` and `messages` are opaque pass-through payload data
  (`opaque mapping` / `ordered sequence` in the spec), so the document is
  parameterised by the type `α` of settings values and the type `β` of
  message objects.
* The index artifact is modelled at two levels.  `IndexContent` is its
  decoded content as seen at the `json.loads` stage: either content that
  parses to a well-formed entry list (everything `_save_index` ever
  writes) or decoded text on which `json.loads` raises `JSONDecodeError`
  (the `malformed` constructor).  Beneath that, the raw byte level of
  `INDEX_PATH.read_text(encoding="utf-8")` is modelled by
  `load_index_from_bytes` over a `List Nat` of bytes, with a strict UTF-8
  decoder (`utf8_decode?`) standing for Python's `utf-8` codec: bytes
  that do not decode raise `UnicodeDecodeError`, which `_load_index` does
  NOT catch — its `except` clause covers `json.JSONDecodeError` only.
-/

namespace LocalLlama

/-- One conversation index entry: `{id, title, created_at, updated_at}`. -/
structure IndexEntry where
  id : String
  title : String
  created_at : String
  updated_at : String
deriving Repr, DecidableEq

/-- The decoded content of the index artifact `conversations.json`, as
seen by `json.loads` after `read_text` has successfully decoded the bytes:
either it parses to a list of entries, or parsing raises `JSONDecodeError`
(arbitrary unparseable text `raw`).  The byte level beneath — where
`read_text` itself can raise an uncaught `UnicodeDecodeError` — is
modelled separately by `load_index_from_bytes`. -/
inductive IndexContent where
  | wellFormed (entries : List IndexEntry)
  | malformed (raw : String)
deriving Repr, DecidableEq

/-- A full conversation document, as assembled by `save_conversation`:
`{id, title, created_at, updated_at, system, settings, messages}`.
`α` is the (opaque) type of settings values, `β` of message objects. -/
structure Conversation (α β : Type) where
  id : String
  title : String
  created_at : String
  updated_at : String
  system : String
  settings : List (String × α)
  messages : List β
deriving Repr, DecidableEq

/-- The JSON body POSTed to `/api/conversations`: each document field may be
present or absent.  `none` covers both an absent key and JSON `null`
(`payload.get(...)` returns Python `None` in both cases). -/
structure Payload (α β : Type) where
  id? : Option String := none
  title? : Option String := none
  created_at? : Option String := none
  system? : Option String := none
  settings? : Option (List (String × α)) := none
  messages? : Option (List β) := none
deriving Repr, DecidableEq

/-- Persistent storage: the per-conversation document artifacts (a finite
map, file name = id) and the index artifact. -/
structure Store (α β : Type) where
  docs : List (String × Conversation α β)
  index : IndexContent
deriving Repr, DecidableEq

/-- Python's `x or d` for an optional string `x`: the default is taken when
the value is missing (`None`) or falsy (the empty string). -/
def orFalsy (x : Option String) (d : String) : String :=
  match x with
  | none => d
  | some s => if s = "" then d else s

/-- `_load_index()`: `json.loads` of the artifact, with `JSONDecodeError`
caught and turned into `[]`. -/
def load_index : IndexContent → List IndexEntry
  | .wellFormed entries => entries
  | .malformed _ => []

/-- `_save_index(items)`: serialise `items` back to the artifact (the result
always parses). -/
def save_index (items : List IndexEntry) : IndexContent :=
  .wellFormed items

/-- `Path.write_text` on the document directory: replace the file named
`cid` if present, otherwise create it. -/
def write_doc {α β : Type} :
    List (String × Conversation α β) → String → Conversation α β →
    List (String × Conversation α β)
  | [], cid, c => [(cid, c)]
  | (k, v) :: rest, cid, c =>
    if k = cid then (cid, c) :: rest else (k, v) :: write_doc rest cid c

/-- `_load_conversation(conv_id)`: `None` when the document artifact does
not exist, the parsed document otherwise. -/
def load_conversation {α β : Type} (docs : List (String × Conversation α β))
    (conv_id : String) : Option (Conversation α β) :=
  docs.lookup conv_id

/-- `_save_conversation(data)`: write the full document under `data["id"]`. -/
def save_conversation_doc {α β : Type} (docs : List (String × Conversation α β))
    (data : Conversation α β) : List (String × Conversation α β) :=
  write_doc docs data.id data

/-- The scan-and-update loop of `_upsert_index_entry`: the first entry whose
`id` matches gets its `title`/`updated_at` replaced and the rest of the list
is untouched; when no entry matches, a fresh entry is appended. -/
def upsert_entries : List IndexEntry → String → String → String → String →
    List IndexEntry
  | [], conv_id, title, updated_at, created_at =>
    [⟨conv_id, title, created_at, updated_at⟩]
  | item :: rest, conv_id, title, updated_at, created_at =>
    if item.id = conv_id then
      { item with title := title, updated_at := updated_at } :: rest
    else
      item :: upsert_entries rest conv_id title updated_at created_at

/-- `_upsert_index_entry(conv_id, title, updated_at, created_at)`: load the
index, run the scan-and-update loop, save the result. -/
def upsert_index_entry (idx : IndexContent)
    (conv_id title updated_at created_at : String) : IndexContent :=
  save_index (upsert_entries (load_index idx) conv_id title updated_at created_at)

/-- `POST /api/conversations` (`save_conversation`): resolve the id, title
and `created_at` through Python `or` (so empty strings also take the
default), refresh `updated_at`, assemble the full document, write the
document artifact, then upsert the index.  Returns the assembled document
and the new storage state. -/
def save_conversation {α β : Type} (st : Store α β) (payload : Payload α β)
    (freshId now : String) : Conversation α β × Store α β :=
  let conv_id := orFalsy payload.id? freshId
  let title := orFalsy payload.title? "Untitled"
  let created_at := orFalsy payload.created_at? now
  let updated_at := now
  let data : Conversation α β :=
    { id := conv_id
      title := title
      created_at := created_at
      updated_at := updated_at
      system := payload.system?.getD ""
      settings := payload.settings?.getD []
      messages := payload.messages?.getD [] }
  (data,
   { docs := save_conversation_doc st.docs data
     index := upsert_index_entry st.index conv_id title updated_at created_at })

/-- `GET /api/conversations/{conv_id}` (`get_conversation`): 404 when the
document artifact is missing (a stored document is a seven-key dict, hence
never falsy, so `if not data` is exactly the missing-artifact test).
Performs no write: the state comes back unchanged. -/
def get_conversation {α β : Type} (st : Store α β) (conv_id : String) :
    Except Nat (Conversation α β) × Store α β :=
  match load_conversation st.docs conv_id with
  | none => (.error 404, st)
  | some data => (.ok data, st)

/-- `GET /api/conversations` (`list_conversations`): return the loaded
index.  Performs no write. -/
def list_conversations {α β : Type} (st : Store α β) :
    List IndexEntry × Store α β :=
  (load_index st.index, st)

/-- `DELETE /api/conversations/{conv_id}` (`delete_conversation`): 404 when
the document artifact is missing, leaving storage untouched; otherwise
unlink the document artifact, rewrite the index with the matching entry
filtered out, and answer `{"ok": true}`. -/
def delete_conversation {α β : Type} (st : Store α β) (conv_id : String) :
    Except Nat Bool × Store α β :=
  match load_conversation st.docs conv_id with
  | none => (.error 404, st)
  | some _ =>
    (.ok true,
     { docs := st.docs.filter (fun p => p.1 ≠ conv_id)
       index := save_index ((load_index st.index).filter (fun item => item.id ≠ conv_id)) })

/-- The `{status_code, detail}` pair of a `fastapi.HTTPException`. -/
structure HTTPExc where
  status_code : Nat
  detail : String
deriving Repr, DecidableEq

/-- The upstream daemon's reply to one request: HTTP status code and the
response body text. -/
structure Upstream where
  status_code : Nat
  body : String
deriving Repr, DecidableEq

/-- Split a character sequence at every newline (the splitting
`String.splitOn "\n"` performs, written structurally). -/
def split_newlines : List Char → List (List Char)
  | [] => [[]]
  | ch :: rest =>
    if ch = '\n' then [] :: split_newlines rest
    else
      match split_newlines rest with
      | [] => [[ch]]
      | l :: ls => (ch :: l) :: ls

/-- `httpx` `response.aiter_lines()` over the full body: newline splitting.
Re-grouping the body into different network packets cannot change the
result, since it only depends on the concatenated body. -/
def aiter_lines (body : String) : List String :=
  (split_newlines body.toList).map (fun cs => String.mk cs)

/-- `_ollama_get(path)`: raise `HTTPException(status, body)` on any upstream
status ≥ 400, otherwise hand back the (JSON) body. -/
def ollama_get (resp : Upstream) : Except HTTPExc String :=
  if 400 ≤ resp.status_code then .error ⟨resp.status_code, resp.body⟩
  else .ok resp.body

/-- `_ollama_post_json(path, payload)`: same failure contract as
`_ollama_get`, buffered POST. -/
def ollama_post_json (resp : Upstream) : Except HTTPExc String :=
  if 400 ≤ resp.status_code then .error ⟨resp.status_code, resp.body⟩
  else .ok resp.body

/-- The relay loop of `_ollama_stream`: skip empty lines (`if not line:
continue`), re-terminate every other line with one newline and emit it as a
chunk. -/
def relay_lines : List String → List String
  | [] => []
  | line :: rest =>
    if line = "" then relay_lines rest
    else (line ++ "\n") :: relay_lines rest

/-- `_ollama_stream(path, payload)`: on status ≥ 400 read the whole error
body and raise `HTTPException(status, body)` before the first chunk;
otherwise emit the relayed chunk sequence. -/
def ollama_stream (resp : Upstream) : Except HTTPExc (List String) :=
  if 400 ≤ resp.status_code then .error ⟨resp.status_code, resp.body⟩
  else .ok (relay_lines (aiter_lines resp.body))

/-- The body a `pull`/`chat`/`generate` handler produces: either the
buffered JSON reply or a chunk stream with its content type. -/
inductive EndpointResult where
  | buffered (data : String)
  | streamed (chunks : List String) (media_type : String)
deriving Repr, DecidableEq

/-- `POST /api/pull` (`pull_model`): `stream = payload.get("stream", True)`;
buffered POST when falsy, streaming relay with `application/x-ndjson`
framing otherwise. -/
def pull_model (stream? : Option Bool) (upstream : Upstream) :
    Except HTTPExc EndpointResult :=
  if !(stream?.getD true) then (ollama_post_json upstream).map .buffered
  else (ollama_stream upstream).map (fun chunks =>
    .streamed chunks "application/x-ndjson")

/-- `POST /api/chat` (`chat`): identical shape to `pull_model` against the
`/chat` upstream path. -/
def chat (stream? : Option Bool) (upstream : Upstream) :
    Except HTTPExc EndpointResult :=
  if !(stream?.getD true) then (ollama_post_json upstream).map .buffered
  else (ollama_stream upstream).map (fun chunks =>
    .streamed chunks "application/x-ndjson")

/-- `POST /api/generate` (`generate`): identical shape to `pull_model`
against the `/generate` upstream path. -/
def generate (stream? : Option Bool) (upstream : Upstream) :
    Except HTTPExc EndpointResult :=
  if !(stream?.getD true) then (ollama_post_json upstream).map .buffered
  else (ollama_stream upstream).map (fun chunks =>
    .streamed chunks "application/x-ndjson")

/-- First index entry with the given id — the entry `_upsert_index_entry`'s
scan stops at. -/
def find_entry (items : List IndexEntry) (cid : String) : Option IndexEntry :=
  items.find? (fun e => e.id = cid)

/-- A UTF-8 continuation byte: `0x80..0xBF`. -/
def utf8_cont (b : Nat) : Bool :=
  128 ≤ b && b < 192

/-- Strict UTF-8 decoding, as performed by Python's `utf-8` codec inside
`read_text`: one-byte `00..7F`; two-byte lead `C2..DF` (rejecting the
overlong leads `C0`/`C1`); three-byte leads `E0..EF` with the restricted
first continuation after `E0` (no overlongs) and after `ED` (no
surrogates); four-byte leads `F0..F4` with the restricted first
continuation after `F0` (no overlongs) and after `F4` (nothing above
`U+10FFFF`); every other lead byte, truncated sequence or bad
continuation is a decoding error (`none`). -/
def utf8_decode? : List Nat → Option (List Char)
  | [] => some []
  | b :: rest =>
    if b < 128 then
      (utf8_decode? rest).map (fun cs => Char.ofNat b :: cs)
    else if 194 ≤ b && b < 224 then
      match rest with
      | b1 :: rest1 =>
        if utf8_cont b1 then
          (utf8_decode? rest1).map (fun cs =>
            Char.ofNat ((b - 192) * 64 + (b1 - 128)) :: cs)
        else none
      | [] => none
    else if 224 ≤ b && b < 240 then
      match rest with
      | b1 :: b2 :: rest2 =>
        if (if b = 224 then decide (160 ≤ b1) && decide (b1 < 192)
            else if b = 237 then decide (128 ≤ b1) && decide (b1 < 160)
            else utf8_cont b1) && utf8_cont b2 then
          (utf8_decode? rest2).map (fun cs =>
            Char.ofNat ((b - 224) * 4096 + (b1 - 128) * 64 + (b2 - 128)) :: cs)
        else none
      | _ => none
    else if 240 ≤ b && b < 245 then
      match rest with
      | b1 :: b2 :: b3 :: rest3 =>
        if (if b = 240 then decide (144 ≤ b1) && decide (b1 < 192)
            else if b = 244 then decide (128 ≤ b1) && decide (b1 < 144)
            else utf8_cont b1) && utf8_cont b2 && utf8_cont b3 then
          (utf8_decode? rest3).map (fun cs =>
            Char.ofNat ((b - 240) * 262144 + (b1 - 128) * 4096
              + (b2 - 128) * 64 + (b3 - 128)) :: cs)
        else none
      | _ => none
    else none

/-- `INDEX_PATH.read_text(encoding="utf-8")` on raw artifact bytes: the
decoded text, or `none` when the codec raises `UnicodeDecodeError`. -/
def read_text? (bytes : List Nat) : Option String :=
  (utf8_decode? bytes).map (fun cs => String.mk cs)

/-- An uncaught Python exception escaping `_load_index`. -/
inductive PyExc where
  | UnicodeDecodeError
deriving Repr, DecidableEq

/-- `_load_index()` at the byte level: `read_text` decodes the artifact
bytes strictly, and its `UnicodeDecodeError` propagates — the `except`
clause catches `json.JSONDecodeError` only, mapping it to `[]`.
`json.loads` on the decoded text is the parameter `loads?`, with `none`
standing for `JSONDecodeError` and `some entries` for a successful parse
of store-written content (an entry list is the only value `_save_index`
ever serialises). -/
def load_index_from_bytes (loads? : String → Option (List IndexEntry))
    (bytes : List Nat) : Except PyExc (List IndexEntry) :=
  match read_text? bytes with
  | none => .error PyExc.UnicodeDecodeError
  | some s =>
    match loads? s with
    | none => .ok []
    | some entries => .ok entries

/-- `GET /api/conversations` (`list_conversations`) at the byte level:
returns whatever `_load_index` produces, and fails whenever `_load_index`
raises. -/
def list_conversations_from_bytes (loads? : String → Option (List IndexEntry))
    (bytes : List Nat) : Except PyExc (List IndexEntry) :=
  load_index_from_bytes loads? bytes

/-! ## Helper lemmas -/

theorem lookup_write_doc {α β : Type} (docs : List (String × Conversation α β))
    (cid : String) (c : Conversation α β) :
    (write_doc docs cid c).lookup cid = some c := by
  induction docs with
  | nil => simp [write_doc, List.lookup]
  | cons hd tl ih =>
    obtain ⟨k, v⟩ := hd
    by_cases hk : k = cid
    · simp [write_doc, hk, List.lookup]
    · have hne : (cid == k) = false := beq_eq_false_iff_ne.mpr (Ne.symm hk)
      simp [write_doc, hk, List.lookup, hne, ih]

theorem lookup_filter_ne {α β : Type} (docs : List (String × Conversation α β))
    (cid : String) :
    (docs.filter (fun p => p.1 ≠ cid)).lookup cid = none := by
  induction docs with
  | nil => simp
  | cons hd tl ih =>
    obtain ⟨k, v⟩ := hd
    by_cases hk : k = cid
    · have hp : decide ((k, v).1 ≠ cid) = false := by simp [hk]
      rw [List.filter_cons, hp, if_neg (by simp)]
      exact ih
    · have hp : decide ((k, v).1 ≠ cid) = true := by simp [hk]
      have hne : (cid == k) = false := beq_eq_false_iff_ne.mpr (Ne.symm hk)
      rw [List.filter_cons, hp, if_pos rfl]
      simp only [List.lookup]
      rw [hne]
      exact ih

theorem relay_lines_eq_filter_map (lines : List String) :
    relay_lines lines = (lines.filter (fun l => l ≠ "")).map (fun l => l ++ "\n") := by
  induction lines with
  | nil => simp [relay_lines]
  | cons line rest ih =>
    by_cases h : line = ""
    · simp [relay_lines, h, ih]
    · simp [relay_lines, h, ih]

theorem upsert_entries_not_mem (items : List IndexEntry) (cid t u c : String)
    (h : cid ∉ items.map (fun e => e.id)) :
    upsert_entries items cid t u c = items ++ [⟨cid, t, c, u⟩] := by
  induction items with
  | nil => rfl
  | cons item rest ih =>
    have h1 : ¬ item.id = cid := by
      intro he
      exact h (by simp [he])
    have h2 : cid ∉ rest.map (fun e => e.id) := by
      intro hm
      exact h (by simp [hm])
    simp [upsert_entries, h1, ih h2]

theorem upsert_entries_mem (items : List IndexEntry) (cid t u c : String)
    (h : cid ∈ items.map (fun e => e.id)) :
    ∃ i, ∃ hi : i < items.length,
      (items.get ⟨i, hi⟩).id = cid
      ∧ upsert_entries items cid t u c
          = items.set i { items.get ⟨i, hi⟩ with title := t, updated_at := u } := by
  induction items with
  | nil => simp at h
  | cons item rest ih =>
    by_cases he : item.id = cid
    · refine ⟨0, by simp, by simpa using he, ?_⟩
      simp [upsert_entries, he]
    · have h2 : cid ∈ rest.map (fun e => e.id) := by
        rw [List.map_cons] at h
        rcases List.mem_cons.mp h with h' | h'
        · exact absurd h'.symm he
        · exact h'
      obtain ⟨i, hi, hid, heq⟩ := ih h2
      refine ⟨i + 1, by simpa using Nat.succ_lt_succ hi, by simpa using hid, ?_⟩
      simp [upsert_entries, he, heq]

theorem upsert_entries_map_id (items : List IndexEntry) (cid t u c : String) :
    (upsert_entries items cid t u c).map (fun e => e.id)
      = if cid ∈ items.map (fun e => e.id) then items.map (fun e => e.id)
        else items.map (fun e => e.id) ++ [cid] := by
  induction items with
  | nil => simp [upsert_entries]
  | cons item rest ih =>
    by_cases he : item.id = cid
    · simp [upsert_entries, he]
    · have hne : ¬ cid = item.id := fun hc => he hc.symm
      by_cases hm : cid ∈ rest.map (fun e => e.id)
      · simp [upsert_entries, he, ih, hm, hne]
      · simp [upsert_entries, he, ih, hm, hne]

theorem find_entry_upsert (items : List IndexEntry) (cid t u c : String) :
    find_entry (upsert_entries items cid t u c) cid
      = some ⟨cid, t,
          (match find_entry items cid with
           | some e => e.created_at
           | none => c), u⟩ := by
  induction items with
  | nil => simp [find_entry, upsert_entries, List.find?]
  | cons item rest ih =>
    by_cases he : item.id = cid
    · simp [find_entry, upsert_entries, he, List.find?]
    · have hp : (decide (item.id = cid)) = false := by simp [he]
      have lhs : find_entry (upsert_entries (item :: rest) cid t u c) cid
          = find_entry (upsert_entries rest cid t u c) cid := by
        simp only [upsert_entries, if_neg he, find_entry, List.find?_cons, hp]
      have rhs : find_entry (item :: rest) cid = find_entry rest cid := by
        simp only [find_entry, List.find?_cons, hp]
      rw [lhs, rhs]
      exact ih

/-! ## Claim C1 -/

/-- Claim C1: saving a conversation and then fetching it by the returned id
gives back exactly the document the save returned; in that document the
provided fields are kept verbatim, `title` defaults to `"Untitled"` when
absent or empty, `system` to the empty string, `settings` to the empty
mapping, `messages` to the empty sequence, `updated_at` is the save time
and `created_at` is the provided value when present and non-empty,
otherwise the save time. -/
theorem save_then_get_roundtrip {α β : Type} (st : Store α β) (p : Payload α β)
    (freshId now : String) :
    (get_conversation (save_conversation st p freshId now).2
        (save_conversation st p freshId now).1.id).1
      = Except.ok (save_conversation st p freshId now).1
    ∧ ((p.title? = none ∨ p.title? = some "") →
        (save_conversation st p freshId now).1.title = "Untitled")
    ∧ (∀ t, p.title? = some t → t ≠ "" →
        (save_conversation st p freshId now).1.title = t)
    ∧ (p.system? = none → (save_conversation st p freshId now).1.system = "")
    ∧ (∀ s, p.system? = some s → (save_conversation st p freshId now).1.system = s)
    ∧ (p.settings? = none → (save_conversation st p freshId now).1.settings = [])
    ∧ (∀ s, p.settings? = some s → (save_conversation st p freshId now).1.settings = s)
    ∧ (p.messages? = none → (save_conversation st p freshId now).1.messages = [])
    ∧ (∀ m, p.messages? = some m → (save_conversation st p freshId now).1.messages = m)
    ∧ (save_conversation st p freshId now).1.updated_at = now
    ∧ ((p.created_at? = none ∨ p.created_at? = some "") →
        (save_conversation st p freshId now).1.created_at = now)
    ∧ (∀ c, p.created_at? = some c → c ≠ "" →
        (save_conversation st p freshId now).1.created_at = c) := by
  refine ⟨?_, ?_, ?_, ?_, ?_, ?_, ?_, ?_, ?_, ?_, ?_, ?_⟩
  · simp [get_conversation, load_conversation, save_conversation,
          save_conversation_doc, lookup_write_doc]
  · rintro (h | h) <;> simp [save_conversation, orFalsy, h]
  · intro t ht hne; simp [save_conversation, orFalsy, ht, hne]
  · intro h; simp [save_conversation, h]
  · intro s hs; simp [save_conversation, hs]
  · intro h; simp [save_conversation, h]
  · intro s hs; simp [save_conversation, hs]
  · intro h; simp [save_conversation, h]
  · intro m hm; simp [save_conversation, hm]
  · simp [save_conversation]
  · rintro (h | h) <;> simp [save_conversation, orFalsy, h]
  · intro c hc hne; simp [save_conversation, orFalsy, hc, hne]

/-- Concrete run of `save_then_get_roundtrip`: an empty title defaults to
`"Untitled"`, a provided `created_at` is kept, and the fetch returns the
saved document. -/
theorem save_then_get_roundtrip_witness :
    (get_conversation
        (save_conversation (⟨[], .wellFormed []⟩ : Store String String)
          { title? := some "", messages? := some ["m"], created_at? := some "c" }
          "f" "t").2
        (save_conversation (⟨[], .wellFormed []⟩ : Store String String)
          { title? := some "", messages? := some ["m"], created_at? := some "c" }
          "f" "t").1.id).1
      = Except.ok (save_conversation (⟨[], .wellFormed []⟩ : Store String String)
          { title? := some "", messages? := some ["m"], created_at? := some "c" }
          "f" "t").1
    ∧ (save_conversation (⟨[], .wellFormed []⟩ : Store String String)
          { title? := some "", messages? := some ["m"], created_at? := some "c" }
          "f" "t").1.title = "Untitled"
    ∧ (save_conversation (⟨[], .wellFormed []⟩ : Store String String)
          { title? := some "", messages? := some ["m"], created_at? := some "c" }
          "f" "t").1.created_at = "c" := by
  obtain ⟨h1, h2, _, _, _, _, _, _, _, _, _, h12⟩ :=
    save_then_get_roundtrip (⟨[], .wellFormed []⟩ : Store String String)
      { title? := some "", messages? := some ["m"], created_at? := some "c" } "f" "t"
  exact ⟨h1, h2 (Or.inr rfl), h12 "c" rfl (by decide)⟩

/-! ## Claim C2 -/

/-- Claim C2 is false for the returned document: `created_at` is recomputed
from the payload on every save, so re-posting an existing id without
echoing `created_at` (here: first save at time `t1`, second save of the
same id `"a"` with a new title at time `t2`) changes the response's
`created_at` from `"t1"` to `"t2"`. -/
theorem created_at_not_fixed_counterexample :
    (save_conversation
        (save_conversation (⟨[], .wellFormed []⟩ : Store String String)
          { id? := some "a" } "f1" "t1").2
        { id? := some "a", title? := some "Renamed" } "f2" "t2").1.created_at
      ≠ (save_conversation (⟨[], .wellFormed []⟩ : Store String String)
          { id? := some "a" } "f1" "t1").1.created_at
    ∧ (save_conversation (⟨[], .wellFormed []⟩ : Store String String)
        { id? := some "a" } "f1" "t1").1.created_at = "t1"
    ∧ (save_conversation
        (save_conversation (⟨[], .wellFormed []⟩ : Store String String)
          { id? := some "a" } "f1" "t1").2
        { id? := some "a", title? := some "Renamed" } "f2" "t2").1.created_at = "t2" := by
  refine ⟨by decide, by decide, by decide⟩

/-- Claim C2 (amended): `updated_at` of the returned document is refreshed
to the save time on every save; the returned document's `created_at` equals
the payload's `created_at` whenever that is provided and non-empty, and the
save time otherwise — it is recomputed from the payload, not read back from
the stored document.  The index entry's `created_at`, by contrast, is fixed
at its first save and never changed by later saves of the same id, while a
later save sets that entry's `title` to the resolved title and advances its
`updated_at` to the new save time. -/
theorem created_updated_semantics {α β : Type} (st : Store α β) (p : Payload α β)
    (freshId now : String) :
    (save_conversation st p freshId now).1.updated_at = now
    ∧ (∀ c, p.created_at? = some c → c ≠ "" →
        (save_conversation st p freshId now).1.created_at = c)
    ∧ ((p.created_at? = none ∨ p.created_at? = some "") →
        (save_conversation st p freshId now).1.created_at = now)
    ∧ find_entry (load_index (save_conversation st p freshId now).2.index)
          (save_conversation st p freshId now).1.id
        = some ⟨(save_conversation st p freshId now).1.id,
                (save_conversation st p freshId now).1.title,
                (match find_entry (load_index st.index)
                    (save_conversation st p freshId now).1.id with
                 | some e => e.created_at
                 | none => (save_conversation st p freshId now).1.created_at),
                now⟩ := by
  refine ⟨by simp [save_conversation], ?_, ?_, ?_⟩
  · intro c hc hne; simp [save_conversation, orFalsy, hc, hne]
  · rintro (h | h) <;> simp [save_conversation, orFalsy, h]
  · exact find_entry_upsert (load_index st.index) (orFalsy p.id? freshId)
      (orFalsy p.title? "Untitled") now (orFalsy p.created_at? now)

/-- Concrete run of `created_updated_semantics`: a save at time `"t"` with
`created_at` provided as `"c"` returns `updated_at = "t"`, keeps
`created_at = "c"`, and writes the matching index entry. -/
theorem created_updated_semantics_witness :
    (save_conversation (⟨[], .wellFormed []⟩ : Store String String)
        { id? := some "a", created_at? := some "c" } "f" "t").1.updated_at = "t"
    ∧ (save_conversation (⟨[], .wellFormed []⟩ : Store String String)
        { id? := some "a", created_at? := some "c" } "f" "t").1.created_at = "c" := by
  have h := created_updated_semantics (⟨[], .wellFormed []⟩ : Store String String)
      { id? := some "a", created_at? := some "c" } "f" "t"
  exact ⟨h.1, h.2.1 "c" rfl (by decide)⟩

/-! ## Claim C3 -/

/-- Claim C3: a save whose resolved id is not in the index appends exactly
one entry for it, increasing the index length by one; a save whose resolved
id is already present keeps the index length and rewrites only the first
matching entry's `title` and `updated_at` (via `List.set` at its position),
every other entry and field unchanged. -/
theorem save_index_upsert_shape {α β : Type} (st : Store α β) (p : Payload α β)
    (freshId now : String) :
    ((save_conversation st p freshId now).1.id
        ∉ (load_index st.index).map (fun e => e.id) →
      (load_index (save_conversation st p freshId now).2.index).length
          = (load_index st.index).length + 1
      ∧ load_index (save_conversation st p freshId now).2.index
          = load_index st.index
            ++ [⟨(save_conversation st p freshId now).1.id,
                 (save_conversation st p freshId now).1.title,
                 (save_conversation st p freshId now).1.created_at, now⟩])
    ∧ ((save_conversation st p freshId now).1.id
        ∈ (load_index st.index).map (fun e => e.id) →
      (load_index (save_conversation st p freshId now).2.index).length
          = (load_index st.index).length
      ∧ ∃ i, ∃ hi : i < (load_index st.index).length,
          ((load_index st.index).get ⟨i, hi⟩).id
              = (save_conversation st p freshId now).1.id
          ∧ load_index (save_conversation st p freshId now).2.index
              = (load_index st.index).set i
                  { (load_index st.index).get ⟨i, hi⟩ with
                      title := (save_conversation st p freshId now).1.title
                      updated_at := now }) := by
  have hsave : load_index (save_conversation st p freshId now).2.index
      = upsert_entries (load_index st.index) (orFalsy p.id? freshId)
          (orFalsy p.title? "Untitled") now (orFalsy p.created_at? now) := rfl
  constructor
  · intro hnot
    have h := upsert_entries_not_mem (load_index st.index)
        (orFalsy p.id? freshId) (orFalsy p.title? "Untitled") now
        (orFalsy p.created_at? now) hnot
    rw [hsave, h]
    constructor
    · simp
    · rfl
  · intro hmem
    obtain ⟨i, hi, hid, heq⟩ := upsert_entries_mem (load_index st.index)
        (orFalsy p.id? freshId) (orFalsy p.title? "Untitled") now
        (orFalsy p.created_at? now) hmem
    refine ⟨?_, i, hi, hid, ?_⟩
    · rw [hsave, heq]
      simp
    · rw [hsave, heq]
      rfl

/-- Concrete run of `save_index_upsert_shape`: against an index holding one
entry for id `"a"`, saving id `"b"` yields an index of length two and
saving id `"a"` again keeps the length at one. -/
theorem save_index_upsert_shape_witness :
    (load_index (save_conversation
        (⟨[], .wellFormed [⟨"a", "T", "c0", "u0"⟩]⟩ : Store String String)
        { id? := some "b" } "f" "t").2.index).length = 2
    ∧ (load_index (save_conversation
        (⟨[], .wellFormed [⟨"a", "T", "c0", "u0"⟩]⟩ : Store String String)
        { id? := some "a" } "f" "t").2.index).length = 1 := by
  constructor
  · have h := (save_index_upsert_shape
        (⟨[], .wellFormed [⟨"a", "T", "c0", "u0"⟩]⟩ : Store String String)
        { id? := some "b" } "f" "t").1 (by decide)
    rw [h.1]
    decide
  · have h := (save_index_upsert_shape
        (⟨[], .wellFormed [⟨"a", "T", "c0", "u0"⟩]⟩ : Store String String)
        { id? := some "a" } "f" "t").2 (by decide)
    rw [h.1]
    decide

/-! ## Claim C4 -/

/-- Claim C4: deleting an id whose document artifact exists removes that
document artifact and every index entry carrying the id, and reports
success (`ok`); deleting an id with no document artifact yields a 404 and
leaves the document artifacts and the index exactly unchanged. -/
theorem delete_semantics {α β : Type} (st : Store α β) (conv_id : String) :
    ((∃ d, load_conversation st.docs conv_id = some d) →
      (delete_conversation st conv_id).1 = Except.ok true
      ∧ load_conversation (delete_conversation st conv_id).2.docs conv_id = none
      ∧ (delete_conversation st conv_id).2.docs
          = st.docs.filter (fun q => q.1 ≠ conv_id)
      ∧ load_index (delete_conversation st conv_id).2.index
          = (load_index st.index).filter (fun e => e.id ≠ conv_id)
      ∧ ∀ e ∈ load_index (delete_conversation st conv_id).2.index, e.id ≠ conv_id)
    ∧ (load_conversation st.docs conv_id = none →
      (delete_conversation st conv_id).1 = Except.error 404
      ∧ (delete_conversation st conv_id).2 = st) := by
  constructor
  · rintro ⟨d, hd⟩
    have hdel : delete_conversation st conv_id
        = (Except.ok true,
           ⟨st.docs.filter (fun q => q.1 ≠ conv_id),
            save_index ((load_index st.index).filter (fun e => e.id ≠ conv_id))⟩) := by
      simp [delete_conversation, hd]
    refine ⟨by rw [hdel], ?_, by rw [hdel], by rw [hdel]; rfl, ?_⟩
    · rw [hdel]
      exact lookup_filter_ne st.docs conv_id
    · rw [hdel]
      intro e he
      exact of_decide_eq_true (List.mem_filter.mp he).2
  · intro hd
    constructor <;> simp [delete_conversation, hd]

/-- Concrete run of `delete_semantics`: deleting the stored id `"a"`
succeeds and removes its document, while deleting the absent id `"b"`
yields a 404. -/
theorem delete_semantics_witness :
    (delete_conversation
        (⟨[("a", ⟨"a", "T", "c", "u", "", [], []⟩)],
          .wellFormed [⟨"a", "T", "c", "u"⟩]⟩ : Store String String) "a").1
      = Except.ok true
    ∧ load_conversation (delete_conversation
        (⟨[("a", ⟨"a", "T", "c", "u", "", [], []⟩)],
          .wellFormed [⟨"a", "T", "c", "u"⟩]⟩ : Store String String) "a").2.docs "a"
      = none
    ∧ (delete_conversation
        (⟨[("a", ⟨"a", "T", "c", "u", "", [], []⟩)],
          .wellFormed [⟨"a", "T", "c", "u"⟩]⟩ : Store String String) "b").1
      = Except.error 404 := by
  have ha := (delete_semantics
      (⟨[("a", ⟨"a", "T", "c", "u", "", [], []⟩)],
        .wellFormed [⟨"a", "T", "c", "u"⟩]⟩ : Store String String) "a").1
    ⟨⟨"a", "T", "c", "u", "", [], []⟩, by decide⟩
  have hb := (delete_semantics
      (⟨[("a", ⟨"a", "T", "c", "u", "", [], []⟩)],
        .wellFormed [⟨"a", "T", "c", "u"⟩]⟩ : Store String String) "b").2 (by decide)
  exact ⟨ha.1, ha.2.1, hb.1⟩

/-! ## Claim C5 -/

/-- Claim C5: on a 2xx streamed response the relay emits exactly one chunk
per non-empty upstream line, in upstream order, each chunk being the line
re-terminated with a single newline; empty lines contribute no chunk, and
the result depends only on the concatenated body, not on how it was
grouped into network packets. -/
theorem streaming_relay_chunks (u : Upstream) (N : Nat)
    (h2xx : u.status_code < 400)
    (hN : ((aiter_lines u.body).filter (fun l => l ≠ "")).length = N) :
    ollama_stream u
      = Except.ok (((aiter_lines u.body).filter (fun l => l ≠ "")).map
          (fun l => l ++ "\n"))
    ∧ (∀ chunks, ollama_stream u = Except.ok chunks → chunks.length = N)
    ∧ (∀ packets : List String, String.join packets = u.body →
        ollama_stream ⟨u.status_code, String.join packets⟩ = ollama_stream u) := by
  have hlt : ¬ 400 ≤ u.status_code := by omega
  have hok : ollama_stream u
      = Except.ok (((aiter_lines u.body).filter (fun l => l ≠ "")).map
          (fun l => l ++ "\n")) := by
    simp [ollama_stream, hlt, relay_lines_eq_filter_map]
  refine ⟨hok, ?_, ?_⟩
  · intro chunks hc
    rw [hok] at hc
    injection hc with hc
    subst hc
    simpa using hN
  · intro packets hp
    rw [hp]

/-- Concrete run of `streaming_relay_chunks`: the body `"a\nb\n\nc"` has
three non-empty lines and is relayed as exactly three newline-terminated
chunks. -/
theorem streaming_relay_chunks_witness :
    (Upstream.mk 200 "a\nb\n\nc").status_code < 400
    ∧ ((aiter_lines (Upstream.mk 200 "a\nb\n\nc").body).filter
          (fun l => l ≠ "")).length = 3
    ∧ ollama_stream ⟨200, "a\nb\n\nc"⟩
        = Except.ok (((aiter_lines (Upstream.mk 200 "a\nb\n\nc").body).filter
            (fun l => l ≠ "")).map (fun l => l ++ "\n")) :=
  ⟨by decide, by decide,
   (streaming_relay_chunks ⟨200, "a\nb\n\nc"⟩ 3 (by decide) (by decide)).1⟩

/-! ## Claim C6 -/

/-- Claim C6: any upstream status ≥ 400 makes the buffered GET, the
buffered POST and the streaming POST fail with an error carrying exactly
the upstream status code and exactly the upstream body as its detail; the
streaming call emits no chunk (it fails instead of producing a chunk
sequence). -/
theorem upstream_error_propagation (u : Upstream) (h : 400 ≤ u.status_code) :
    ollama_get u = Except.error ⟨u.status_code, u.body⟩
    ∧ ollama_post_json u = Except.error ⟨u.status_code, u.body⟩
    ∧ ollama_stream u = Except.error ⟨u.status_code, u.body⟩ := by
  refine ⟨?_, ?_, ?_⟩ <;> simp [ollama_get, ollama_post_json, ollama_stream, h]

/-- Concrete run of `upstream_error_propagation`: a 500 upstream reply with
body `"model not found"` propagates as exactly that status and detail. -/
theorem upstream_error_propagation_witness :
    400 ≤ (Upstream.mk 500 "model not found").status_code
    ∧ (ollama_get ⟨500, "model not found"⟩
        = Except.error ⟨500, "model not found"⟩
      ∧ ollama_post_json ⟨500, "model not found"⟩
        = Except.error ⟨500, "model not found"⟩
      ∧ ollama_stream ⟨500, "model not found"⟩
        = Except.error ⟨500, "model not found"⟩) :=
  ⟨by decide, upstream_error_propagation ⟨500, "model not found"⟩ (by decide)⟩

/-! ## Claim C7 -/

/-- Claim C7 is false as stated: the single byte `0xff` is byte content of
the index artifact that is not parseable (it is not even UTF-8 decodable),
yet the list operation does not return the empty sequence — `read_text`
raises `UnicodeDecodeError`, which `_load_index`'s `except` clause (it
catches `json.JSONDecodeError` only) does not cover, so the list operation
fails.  Shown at two different `json.loads` behaviours, since parsing is
never reached. -/
theorem list_fails_on_invalid_utf8_counterexample :
    read_text? [255] = none
    ∧ list_conversations_from_bytes (fun _ => none) [255]
        = Except.error PyExc.UnicodeDecodeError
    ∧ list_conversations_from_bytes (fun _ => some []) [255]
        = Except.error PyExc.UnicodeDecodeError :=
  ⟨rfl, rfl, rfl⟩

/-- Claim C7 (amended): `_load_index` catches only `json.JSONDecodeError`.
For every byte content that decodes as UTF-8 but does not parse, the list
operation does not fail and returns the empty sequence; for parseable
store-written content it returns the stored entries; but for byte content
that is not valid UTF-8, `read_text` raises `UnicodeDecodeError`, which is
not caught, and the list operation fails with it.  Stated for every
behaviour `loads?` of `json.loads` on the decoded text. -/
theorem list_index_corruption_semantics
    (loads? : String → Option (List IndexEntry)) (bytes : List Nat) :
    (read_text? bytes = none →
      list_conversations_from_bytes loads? bytes
        = Except.error PyExc.UnicodeDecodeError)
    ∧ (∀ s, read_text? bytes = some s → loads? s = none →
      list_conversations_from_bytes loads? bytes = Except.ok [])
    ∧ (∀ s entries, read_text? bytes = some s → loads? s = some entries →
      list_conversations_from_bytes loads? bytes = Except.ok entries) := by
  refine ⟨?_, ?_, ?_⟩
  · intro h
    simp [list_conversations_from_bytes, load_index_from_bytes, h]
  · intro s hs hn
    simp [list_conversations_from_bytes, load_index_from_bytes, hs, hn]
  · intro s entries hs he
    simp [list_conversations_from_bytes, load_index_from_bytes, hs, he]

/-- Concrete run of `list_index_corruption_semantics`: the ASCII bytes of
`"not json"` decode but do not parse and the list operation returns `[]`
instead of failing, while a parsed store-written index returns its
entries. -/
theorem list_index_corruption_semantics_witness :
    list_conversations_from_bytes (fun _ => none)
        [110, 111, 116, 32, 106, 115, 111, 110] = Except.ok []
    ∧ list_conversations_from_bytes
        (fun _ => some [⟨"a", "T", "c", "u"⟩]) [91, 93]
      = Except.ok [⟨"a", "T", "c", "u"⟩] := by
  have h1 := (list_index_corruption_semantics (fun _ => none)
      [110, 111, 116, 32, 106, 115, 111, 110]).2.1
  have h2 := (list_index_corruption_semantics
      (fun _ => some [⟨"a", "T", "c", "u"⟩]) [91, 93]).2.2
  exact ⟨h1 "not json" (by decide) rfl, h2 "[]" [⟨"a", "T", "c", "u"⟩] (by decide) rfl⟩

/-! ## Claim C8 -/

/-- Claim C8: for the pull, chat and generate endpoints the `stream` flag
defaults to true when absent; `stream = false` delegates to the buffered
POST and returns its JSON result, and `stream = true` delegates to the
streaming POST and returns the chunk sequence framed as
`application/x-ndjson`. -/
theorem stream_flag_dispatch (u : Upstream) :
    (pull_model none u = pull_model (some true) u
      ∧ chat none u = chat (some true) u
      ∧ generate none u = generate (some true) u)
    ∧ (pull_model (some false) u = (ollama_post_json u).map EndpointResult.buffered
      ∧ chat (some false) u = (ollama_post_json u).map EndpointResult.buffered
      ∧ generate (some false) u = (ollama_post_json u).map EndpointResult.buffered)
    ∧ (pull_model (some true) u
        = (ollama_stream u).map (fun cs => EndpointResult.streamed cs "application/x-ndjson")
      ∧ chat (some true) u
        = (ollama_stream u).map (fun cs => EndpointResult.streamed cs "application/x-ndjson")
      ∧ generate (some true) u
        = (ollama_stream u).map (fun cs => EndpointResult.streamed cs "application/x-ndjson")) :=
  ⟨⟨rfl, rfl, rfl⟩, ⟨rfl, rfl, rfl⟩, ⟨rfl, rfl, rfl⟩⟩

/-! ## Claim C9 -/

/-- Claim C9: when the index entries carry pairwise-distinct ids, the
save-side index upsert and delete both preserve that distinctness; after a
save exactly one entry carries the saved id, and after a successful delete
no entry carries the deleted id. -/
theorem index_ids_distinct_invariant {α β : Type} (st : Store α β)
    (p : Payload α β) (freshId now conv_id : String)
    (hnd : ((load_index st.index).map (fun e => e.id)).Nodup) :
    (((load_index (save_conversation st p freshId now).2.index).map
        (fun e => e.id)).Nodup
      ∧ ((load_index (save_conversation st p freshId now).2.index).map
          (fun e => e.id)).count (save_conversation st p freshId now).1.id = 1)
    ∧ (((load_index (delete_conversation st conv_id).2.index).map
        (fun e => e.id)).Nodup
      ∧ ((delete_conversation st conv_id).1 = Except.ok true →
          ∀ e ∈ load_index (delete_conversation st conv_id).2.index,
            e.id ≠ conv_id)) := by
  have hsave : load_index (save_conversation st p freshId now).2.index
      = upsert_entries (load_index st.index) (orFalsy p.id? freshId)
          (orFalsy p.title? "Untitled") now (orFalsy p.created_at? now) := rfl
  have hmap := upsert_entries_map_id (load_index st.index)
      (orFalsy p.id? freshId) (orFalsy p.title? "Untitled") now
      (orFalsy p.created_at? now)
  constructor
  · have hid : (save_conversation st p freshId now).1.id
        = orFalsy p.id? freshId := rfl
    rw [hsave, hmap, hid]
    by_cases hm : orFalsy p.id? freshId
        ∈ (load_index st.index).map (fun e => e.id)
    · rw [if_pos hm]
      exact ⟨hnd, List.count_eq_one_of_mem hnd hm⟩
    · rw [if_neg hm]
      refine ⟨?_, ?_⟩
      · exact hnd.append (List.nodup_singleton _) (List.disjoint_singleton.mpr hm)
      · rw [List.count_append]
        simp [List.count_eq_zero_of_not_mem hm]
  · rcases hl : load_conversation st.docs conv_id with _ | d
    · have hdel : delete_conversation st conv_id = (Except.error 404, st) := by
        simp [delete_conversation, hl]
      rw [hdel]
      exact ⟨hnd, fun h => Except.noConfusion h⟩
    · have hdel : delete_conversation st conv_id
          = (Except.ok true,
             ⟨st.docs.filter (fun q => q.1 ≠ conv_id),
              save_index ((load_index st.index).filter
                (fun e => e.id ≠ conv_id))⟩) := by
        simp [delete_conversation, hl]
      rw [hdel]
      refine ⟨?_, ?_⟩
      · have hsub : (((load_index st.index).filter
            (fun e => e.id ≠ conv_id)).map (fun e => e.id)).Sublist
              ((load_index st.index).map (fun e => e.id)) :=
          ((load_index st.index).filter_sublist).map (fun e => e.id)
        exact hnd.sublist hsub
      · intro _ e he
        exact of_decide_eq_true (List.mem_filter.mp he).2

/-- Concrete run of `index_ids_distinct_invariant`: re-saving the stored id
`"a"` leaves exactly one index entry with that id, and deleting `"a"` keeps
the remaining index ids distinct. -/
theorem index_ids_distinct_invariant_witness :
    ((load_index (save_conversation
        (⟨[("a", ⟨"a", "T", "c", "u", "", [], []⟩)],
          .wellFormed [⟨"a", "T", "c", "u"⟩]⟩ : Store String String)
        { id? := some "a" } "f" "t").2.index).map (fun e => e.id)).count "a" = 1
    ∧ ((load_index (delete_conversation
        (⟨[("a", ⟨"a", "T", "c", "u", "", [], []⟩)],
          .wellFormed [⟨"a", "T", "c", "u"⟩]⟩ : Store String String) "a").2.index).map
        (fun e => e.id)).Nodup := by
  have h := index_ids_distinct_invariant
      (⟨[("a", ⟨"a", "T", "c", "u", "", [], []⟩)],
        .wellFormed [⟨"a", "T", "c", "u"⟩]⟩ : Store String String)
      { id? := some "a" } "f" "t" "a" (by decide)
  exact ⟨h.1.2, h.2.1⟩

/-! ## Claim C10 -/

/-- Claim C10: `list_conversations` and `get_conversation` are read-only —
for every storage state they return the index and document artifacts
unchanged, whether or not the requested id is found. -/
theorem list_get_read_only {α β : Type} (st : Store α β) (conv_id : String) :
    (list_conversations st).2 = st ∧ (get_conversation st conv_id).2 = st := by
  refine ⟨rfl, ?_⟩
  unfold get_conversation
  rcases load_conversation st.docs conv_id with _ | d <;> rfl

end LocalLlama
